import Mathlib

/-!
Verification of the core of the Azure service usage analyzer
(`new_azure_service_analyzer.py`; the GUI file `azure_analyzer_gui_new.py`
contains verbatim copies of the same core functions).

The embedding models the in-memory pipeline after the CSV baggage is
stripped away:

* a data-frame row is a `Row` of four nullable cells; `total` holds the
  result of `pd.to_numeric(..., errors := coerce)`, so `none` stands both
  for a missing cell and for an unparseable amount, and `none` in
  `service_category` stands for the NaN that `dropna` removes;
* Python `str.strip` is `pyStrip` (drop whitespace from both ends of the
  character list);
* the nested `defaultdict(lambda: defaultdict(lambda: defaultdict(float)))`
  is a nested `Finmap`; Python `dict` equality ignores insertion order,
  which is exactly the equality of `Finmap` (a multiset of key-value
  pairs);
* `float` amounts are modelled by exact rationals `ℚ`: accumulation in the
  source is plain `+=` with `0.0` as the default start value.
-/

namespace CvsAnalyzer

/-! ### Python `str.strip` -/

/-- The whitespace test used by `str.strip()` (modelled by `Char.isWhitespace`). -/
def isWS (c : Char) : Bool := c.isWhitespace

/-- Drop trailing whitespace characters. -/
def dropTrail (l : List Char) : List Char := (l.reverse.dropWhile isWS).reverse

/-- Drop leading and trailing whitespace characters, as `str.strip()` does. -/
def stripList (l : List Char) : List Char := dropTrail (l.dropWhile isWS)

/-- Python `s.strip()`. -/
def pyStrip (s : String) : String := ⟨stripList s.data⟩

/-! ### Data model -/

/-- One row of the cleaned data frame, exposing the four required columns.
`none` in `service_category`/`service_sub_category`/`service_unit` is the
NaN a missing cell produces; `total` is the value after
`pd.to_numeric(..., errors := coerce)`, so `none` also covers an
unparseable amount. -/
structure Row where
  service_category : Option String
  service_sub_category : Option String
  service_unit : Option String
  total : Option ℚ
deriving DecidableEq

/-- A normalized entry, ready for accumulation (spec: `NormalizedEntry`). -/
structure Entry where
  category : String
  subcategory : String
  unit : String
  amount : ℚ
deriving DecidableEq

/-- Third level of the aggregate: `service_unit → accumulated total`. -/
abbrev UnitMap : Type := Finmap fun _ : String => ℚ

/-- Second level of the aggregate: `service_sub_category → UnitMap`. -/
abbrev SubMap : Type := Finmap fun _ : String => UnitMap

/-- The aggregate built by `analyze_azure_services`:
`service_category → service_sub_category → service_unit → total`. -/
abbrev Aggregate : Type := Finmap fun _ : String => SubMap

/-! ### Record normalizer (`analyze_azure_services`, lines 61-73) -/

/-- Lines 63 and 69 of `new_azure_service_analyzer.py`:
`str(x).strip() if str(x) != 'nan' and str(x).strip() else 'N/A'`.
A missing cell is the float NaN, whose `str` is the text `"nan"`, hence the
`none` case; the `try/except` around this expression can never fire on a
string, so it is not modelled. -/
def normField (v : Option String) : String :=
  match v with
  | none => "N/A"
  | some s => if s ≠ "nan" ∧ pyStrip s ≠ "" then pyStrip s else "N/A"

/-- The same substitution as the spec words it (section 4.1): if null,
blank after trimming, or textually equal to the not-a-number marker,
substitute the sentinel; otherwise the trimmed string.  Stated from the
spec only, to be compared with `normField`. -/
def normFieldSpec (v : Option String) : String :=
  match v with
  | none => "N/A"
  | some s => if pyStrip s = "" ∨ s = "nan" then "N/A" else pyStrip s

/-- The row filtering of lines 46-52 (`dropna` on `service_category`,
`to_numeric` + `dropna` on `total`) combined with the per-row
normalization of lines 59-73: a row survives exactly when its category is
non-null and its amount parsed. -/
def normalize (r : Row) : Option Entry :=
  match r.service_category, r.total with
  | some category, some total =>
      some ⟨category, normField r.service_sub_category,
        normField r.service_unit, total⟩
  | _, _ => none

/-! ### Aggregator (`analyze_azure_services`, lines 55-78) -/

/-- Line 76: `service_data[category][subcategory][unit] += total`, with the
three `defaultdict` levels materialised on first access. -/
def addEntry (agg : Aggregate) (e : Entry) : Aggregate :=
  let sub : SubMap := (agg.lookup e.category).getD ∅
  let um : UnitMap := (sub.lookup e.subcategory).getD ∅
  let t : ℚ := (um.lookup e.unit).getD 0
  agg.insert e.category
    (sub.insert e.subcategory (um.insert e.unit (t + e.amount)))

/-- The accumulation loop of lines 58-76 over already-normalized entries
(spec: `aggregate`). -/
def aggregate (entries : List Entry) : Aggregate :=
  entries.foldl addEntry ∅

/-- The whole of `analyze_azure_services` after the CSV has been read:
clean the rows and fold them into the nested aggregate. -/
def analyze_azure_services (rows : List Row) : Aggregate :=
  aggregate (rows.filterMap normalize)

/-! ### Category totals (`calculate_category_totals`, lines 87-111) -/

/-- The inner loop of lines 105-107: sum of all unit totals. -/
def unitMapTotal (units : UnitMap) : ℚ :=
  (units.entries.map fun e => e.2).sum

/-- The loop of lines 103-107: sum over all subcategories of all their
unit totals. -/
def subMapTotal (subcategories : SubMap) : ℚ :=
  (subcategories.entries.map fun e => unitMapTotal e.2).sum

/-- `calculate_category_totals`: one entry per category of `service_data`,
holding the sum of every unit total below that category (the iteration
order of the dictionaries is irrelevant because `+` commutes, so the sums
are taken over the key-value multisets). -/
def calculate_category_totals (service_data : Aggregate) :
    Finmap fun _ : String => ℚ :=
  ⟨service_data.entries.map fun e => ⟨e.1, subMapTotal e.2⟩, by
    have h : (service_data.entries.map
        fun e => (⟨e.1, subMapTotal e.2⟩ : Sigma fun _ : String => ℚ)).keys
        = service_data.entries.keys := by
      simp only [Multiset.keys, Multiset.map_map]
      rfl
    refine Multiset.nodup_keys.mp ?_
    rw [h]
    exact Multiset.nodup_keys.mpr service_data.nodupKeys⟩

/-! ### Derived lookups -/

/-- The total recorded for one (category, subcategory, unit) triple, `none`
when the triple is absent from the aggregate. -/
def lookup₃ (agg : Aggregate) (c s u : String) : Option ℚ :=
  (agg.lookup c).bind fun sm => (sm.lookup s).bind fun um => um.lookup u

/-! ### Differ (`compare_service_data`, lines 429-446) -/

/-- Python truthiness of an optional dictionary: `None` and the empty
dictionary are falsy, everything else is truthy. -/
def pyTruthyAgg (d : Option Aggregate) : Bool :=
  match d with
  | none => false
  | some a => decide (a ≠ ∅)

/-- Lines 440-441: `set(old_data.keys()) if old_data else set()`. -/
def categoriesOf (d : Option Aggregate) : Finset String :=
  if pyTruthyAgg d then (d.getD ∅).keys else ∅

/-- `compare_service_data`, lines 429-446: the two sorted set differences of
the category key sets (`sorted` on a set of strings is ascending
lexicographic order, which is the order of `String`). -/
def compare_service_data (old_data new_data : Option Aggregate) :
    List String × List String :=
  let old_categories := categoriesOf old_data
  let new_categories := categoriesOf new_data
  ((old_categories \ new_categories).sort (· ≤ ·),
   (new_categories \ old_categories).sort (· ≤ ·))

/-! ### Side-by-side display (`display_dual_service_comparison`, lines 448-608)

Only the data the function computes is modelled (which categories appear,
on which side, with which listing and totals); the column formatting of
the printed text carries no further information.  A Python `TypeError`,
raised by `category in old_data` when `old_data` is `None`, is modelled by
`Except.error`. -/

/-- What one side of the comparison prints for one category. -/
inductive SideView where
  | missing (category : String)
  | present (category : String) (isNew : Bool)
      (body : List (String × List (String × ℚ))) (total : ℚ)
deriving DecidableEq

/-- The nested listing printed for one category (lines 486-496): sorted
subcategories, each with its sorted units and their totals. -/
def listCategory (sm : SubMap) : List (String × List (String × ℚ)) :=
  (sm.keys.sort (· ≤ ·)).map fun s =>
    let um := (sm.lookup s).getD ∅
    (s, (um.keys.sort (· ≤ ·)).map fun u => (u, (um.lookup u).getD 0))

/-- Python `category in d` for an optional dictionary `d`: on `None` this
raises `TypeError: argument of type NoneType is not iterable`. -/
def pyContains (d : Option Aggregate) (c : String) : Except String Bool :=
  match d with
  | none => Except.error "TypeError: argument of type NoneType is not iterable"
  | some a => Except.ok (decide (c ∈ a))

/-- One iteration of the loop of lines 481-527: build the left content
(lines 483-501), then the right content (lines 503-527).  Line 484
evaluates `category in old_data` and line 505 `category in new_data`;
line 507 re-tests `category not in old_data` for the NEW marker. -/
def categoryRow (old_data new_data : Option Aggregate)
    (old_totals new_totals : Finmap fun _ : String => ℚ) (category : String) :
    Except String (SideView × SideView) := do
  let inOld ← pyContains old_data category
  let left :=
    if inOld then
      SideView.present category false
        (listCategory (((old_data.getD ∅).lookup category).getD ∅))
        ((old_totals.lookup category).getD 0)
    else SideView.missing category
  let inNew ← pyContains new_data category
  if inNew then
    let inOldAgain ← pyContains old_data category
    pure (left, SideView.present category (!inOldAgain)
      (listCategory (((new_data.getD ∅).lookup category).getD ∅))
      ((new_totals.lookup category).getD 0))
  else
    pure (left, SideView.missing category)

/-- `display_dual_service_comparison`, lines 448-608, reduced to the data
it computes: the union of category keys (lines 469-475), the per-category
side-by-side rows (lines 481-527), and the service-changes section
(line 563).  The summary counters of lines 544-560 are recomputable from
the same aggregates and add nothing to the behaviour verified here. -/
def display_dual_service_comparison (old_data new_data : Option Aggregate) :
    Except String (List (SideView × SideView) × (List String × List String)) := do
  let all_categories : Finset String :=
    (if pyTruthyAgg old_data then (old_data.getD ∅).keys else ∅) ∪
    (if pyTruthyAgg new_data then (new_data.getD ∅).keys else ∅)
  let old_totals :=
    if pyTruthyAgg old_data then calculate_category_totals (old_data.getD ∅)
    else ∅
  let new_totals :=
    if pyTruthyAgg new_data then calculate_category_totals (new_data.getD ∅)
    else ∅
  let rows ← (all_categories.sort (· ≤ ·)).mapM
    (categoryRow old_data new_data old_totals new_totals)
  pure (rows, compare_service_data old_data new_data)

/-! ### Detailed comparison tables (`generate_comparison_pdf`, lines 357-392) -/

/-- The rows of one comparison table (lines 375-392): for every unit in
the sorted key union, the old amount (`get(unit, 0)`), the new amount, and
their difference `new - old`. -/
def comparisonRows (old_sub_data new_sub_data : UnitMap) :
    List (String × ℚ × ℚ × ℚ) :=
  ((old_sub_data.keys ∪ new_sub_data.keys).sort (· ≤ ·)).map fun u =>
    let old_amount := (old_sub_data.lookup u).getD 0
    let new_amount := (new_sub_data.lookup u).getD 0
    (u, old_amount, new_amount, new_amount - old_amount)

/-- The detailed-comparison section of `generate_comparison_pdf`
(lines 357-392): sorted union of categories, for each the sorted union of
subcategories (`get(category, {})` on the absent side), for each the
table of unit rows. -/
def generate_comparison_pdf_detail (old_data new_data : Aggregate) :
    List (String × List (String × List (String × ℚ × ℚ × ℚ))) :=
  ((old_data.keys ∪ new_data.keys).sort (· ≤ ·)).map fun category =>
    let old_cat_data := (old_data.lookup category).getD ∅
    let new_cat_data := (new_data.lookup category).getD ∅
    (category,
      ((old_cat_data.keys ∪ new_cat_data.keys).sort (· ≤ ·)).map fun s =>
        (s, comparisonRows ((old_cat_data.lookup s).getD ∅)
          ((new_cat_data.lookup s).getD ∅)))

/-! ### Key shape invariant -/

/-- A second- or third-level key in the canonical shape the normalizer
produces: the sentinel, or a non-empty string with no leading and no
trailing whitespace. -/
def cleanKey (k : String) : Prop :=
  k = "N/A" ∨ (k ≠ "" ∧ (∀ c ∈ k.data.head?, ¬c.isWhitespace) ∧
    (∀ c ∈ k.data.getLast?, ¬c.isWhitespace))

/-- All subcategory and unit keys of an aggregate are clean. -/
def GoodAgg (agg : Aggregate) : Prop :=
  ∀ c sm, agg.lookup c = some sm →
    (∀ s ∈ sm, cleanKey s) ∧
    ∀ s um, sm.lookup s = some um → ∀ u ∈ um, cleanKey u

/-! ### Proof-side helper definitions -/

/-- Sum of a numeric function over all key-value pairs of a finite map. -/
def fmSum {α : Type u} {β : α → Type v} (f : (a : α) → β a → ℚ)
    (s : Finmap β) : ℚ :=
  (s.entries.map fun e => f e.1 e.2).sum

/-- The overall amount stored in an aggregate. -/
def grandTotal (agg : Aggregate) : ℚ :=
  (agg.entries.map fun e => subMapTotal e.2).sum

/-! ### Concrete sample data used to instantiate the theorems -/

/-- A sample normalized entry. -/
def wEntry1 : Entry := ⟨"Compute", "VM", "Hours", 10⟩

/-- A second sample normalized entry in a different category. -/
def wEntry2 : Entry := ⟨"Storage", "N/A", "GB", 3⟩

/-- A sample raw row whose subcategory needs trimming. -/
def wRow : Row := ⟨some "Compute", some " VM ", some "Hours", some 10⟩

/-- A raw row whose category is blank (whitespace only) but not null. -/
def blankRow : Row := ⟨some " ", some "x", some "u", some 5⟩

/-- The submap `analyze_azure_services [wRow]` stores under `"Compute"`. -/
def wSub : SubMap :=
  (∅ : SubMap).insert "VM" ((∅ : UnitMap).insert "Hours" ((0 : ℚ) + 10))

/-- A one-category aggregate. -/
def cexAgg : Aggregate := Finmap.singleton "A" (∅ : SubMap)

/-- A one-triple aggregate with total 1. -/
def wAgg : Aggregate :=
  Finmap.singleton "C" (Finmap.singleton "S" (Finmap.singleton "U" (1 : ℚ)))

/-! ## Helper lemmas about finite maps -/

theorem entries_insert {α : Type u} [DecidableEq α] {β : α → Type v}
    (a : α) (b : β a) (s : Finmap β) :
    (s.insert a b).entries = ⟨a, b⟩ ::ₘ (s.erase a).entries := by
  refine Finmap.induction_on s fun t => ?_
  simp only [Finmap.insert_toFinmap, Finmap.erase_toFinmap, AList.toFinmap_entries,
    AList.insert_entries]
  rfl

theorem insert_self_of_lookup {α : Type u} [DecidableEq α] {β : α → Type v}
    {s : Finmap β} {a : α} {v : β a} (h : s.lookup a = some v) :
    s.insert a v = s :=
  Finmap.ext_lookup fun x => by
    by_cases hx : x = a
    · subst hx; rw [Finmap.lookup_insert, h]
    · rw [Finmap.lookup_insert_of_ne _ hx]

theorem erase_of_not_mem {α : Type u} [DecidableEq α] {β : α → Type v}
    {s : Finmap β} {a : α} (h : a ∉ s) :
    s.erase a = s :=
  Finmap.ext_lookup fun x => by
    by_cases hx : x = a
    · subst hx
      rw [Finmap.lookup_erase, Eq.comm, Finmap.lookup_eq_none]
      exact h
    · rw [Finmap.lookup_erase_ne hx]

theorem fmSum_insert {α : Type u} [DecidableEq α] {β : α → Type v}
    (f : (a : α) → β a → ℚ) (a : α) (b : β a) (s : Finmap β) :
    fmSum f (s.insert a b) = f a b + fmSum f (s.erase a) := by
  simp [fmSum, entries_insert]

theorem fmSum_lookup {α : Type u} [DecidableEq α] {β : α → Type v}
    (f : (a : α) → β a → ℚ) {s : Finmap β} {a : α} {v : β a}
    (h : s.lookup a = some v) :
    fmSum f s = f a v + fmSum f (s.erase a) := by
  conv_lhs => rw [← insert_self_of_lookup h]
  rw [fmSum_insert]

/-! ## The grand total follows every accumulation step (claim C1) -/

theorem unitMapTotal_empty : unitMapTotal (∅ : UnitMap) = 0 := rfl

theorem subMapTotal_empty : subMapTotal (∅ : SubMap) = 0 := rfl

theorem unitMapTotal_insert_add (um : UnitMap) (u : String) (amt : ℚ) :
    unitMapTotal (um.insert u ((um.lookup u).getD 0 + amt))
      = unitMapTotal um + amt := by
  show fmSum (fun _ q => q) (um.insert u ((um.lookup u).getD 0 + amt))
      = fmSum (fun _ q => q) um + amt
  rw [fmSum_insert]
  cases h : um.lookup u with
  | none =>
      rw [erase_of_not_mem (Finmap.lookup_eq_none.mp h)]
      simp only [Option.getD_none, zero_add]
      rw [add_comm]
  | some t =>
      rw [fmSum_lookup (fun _ q => q) h]
      simp only [Option.getD_some]
      ring

theorem subMapTotal_insert_add (sm : SubMap) (s u : String) (amt : ℚ) :
    subMapTotal (sm.insert s (((sm.lookup s).getD ∅).insert u
        (((((sm.lookup s).getD ∅)).lookup u).getD 0 + amt)))
      = subMapTotal sm + amt := by
  show fmSum (fun _ w => unitMapTotal w) _
      = fmSum (fun _ w => unitMapTotal w) sm + amt
  rw [fmSum_insert]
  cases h : sm.lookup s with
  | none =>
      rw [erase_of_not_mem (Finmap.lookup_eq_none.mp h)]
      simp only [Option.getD_none]
      rw [unitMapTotal_insert_add, unitMapTotal_empty, zero_add, add_comm]
  | some um =>
      rw [fmSum_lookup (fun _ w => unitMapTotal w) h]
      simp only [Option.getD_some]
      rw [unitMapTotal_insert_add]
      ring

theorem grandTotal_empty : grandTotal (∅ : Aggregate) = 0 := rfl

theorem grandTotal_addEntry (agg : Aggregate) (e : Entry) :
    grandTotal (addEntry agg e) = grandTotal agg + e.amount := by
  show fmSum (fun _ w => subMapTotal w) (addEntry agg e)
      = fmSum (fun _ w => subMapTotal w) agg + e.amount
  simp only [addEntry]
  rw [fmSum_insert]
  cases h : agg.lookup e.category with
  | none =>
      rw [erase_of_not_mem (Finmap.lookup_eq_none.mp h)]
      simp only [Option.getD_none]
      rw [subMapTotal_insert_add, subMapTotal_empty, zero_add, add_comm]
  | some sm =>
      rw [fmSum_lookup (fun _ w => subMapTotal w) h]
      simp only [Option.getD_some]
      rw [subMapTotal_insert_add]
      ring

theorem grandTotal_foldl (l : List Entry) : ∀ agg : Aggregate,
    grandTotal (l.foldl addEntry agg)
      = grandTotal agg + (l.map Entry.amount).sum := by
  induction l with
  | nil => intro agg; simp
  | cons e l ih =>
      intro agg
      simp only [List.foldl_cons, List.map_cons, List.sum_cons]
      rw [ih, grandTotal_addEntry]
      ring

theorem sum_values_calculate (A : Aggregate) :
    ((calculate_category_totals A).entries.map fun e => e.2).sum = grandTotal A := by
  show ((A.entries.map fun e =>
      (⟨e.1, subMapTotal e.2⟩ : Sigma fun _ : String => ℚ)).map fun e => e.2).sum = _
  rw [Multiset.map_map]
  rfl

theorem amounts_filterMap (rows : List Row) :
    ((rows.filterMap normalize).map Entry.amount).sum
      = ((rows.filter fun r => r.service_category.isSome && r.total.isSome).map
          fun r => r.total.getD 0).sum := by
  induction rows with
  | nil => rfl
  | cons r rows ih =>
      rcases r with ⟨oc, os, ou, ot⟩
      cases oc <;> cases ot <;>
        simp [normalize, List.filterMap_cons, List.filter_cons, ih]

/-! ## Accumulation steps commute (claim C2) -/

theorem addEntry_comm (agg : Aggregate) (e₁ e₂ : Entry) :
    addEntry (addEntry agg e₁) e₂ = addEntry (addEntry agg e₂) e₁ := by
  obtain ⟨c₁, s₁, u₁, a₁⟩ := e₁
  obtain ⟨c₂, s₂, u₂, a₂⟩ := e₂
  simp only [addEntry]
  by_cases hc : c₁ = c₂
  · subst hc
    rw [Finmap.lookup_insert, Finmap.lookup_insert]
    simp only [Option.getD_some]
    rw [Finmap.insert_insert, Finmap.insert_insert]
    by_cases hs : s₁ = s₂
    · subst hs
      rw [Finmap.lookup_insert, Finmap.lookup_insert]
      simp only [Option.getD_some]
      rw [Finmap.insert_insert, Finmap.insert_insert]
      by_cases hu : u₁ = u₂
      · subst hu
        rw [Finmap.lookup_insert, Finmap.lookup_insert]
        simp only [Option.getD_some]
        rw [Finmap.insert_insert, Finmap.insert_insert, add_right_comm]
      · rw [Finmap.lookup_insert_of_ne _ (Ne.symm hu),
          Finmap.lookup_insert_of_ne _ hu, Finmap.insert_insert_of_ne _ hu]
    · rw [Finmap.lookup_insert_of_ne _ (Ne.symm hs),
        Finmap.lookup_insert_of_ne _ hs, Finmap.insert_insert_of_ne _ hs]
  · rw [Finmap.lookup_insert_of_ne _ (Ne.symm hc),
      Finmap.lookup_insert_of_ne _ hc, Finmap.insert_insert_of_ne _ hc]

/-! ## One accumulation step, seen through `lookup₃` (claim C4) -/

theorem lookup₃_empty (c s u : String) : lookup₃ ∅ c s u = none := by
  simp [lookup₃]

theorem lookup₃_addEntry (agg : Aggregate) (e : Entry) (c s u : String) :
    lookup₃ (addEntry agg e) c s u =
      if c = e.category ∧ s = e.subcategory ∧ u = e.unit then
        some ((lookup₃ agg c s u).getD 0 + e.amount)
      else lookup₃ agg c s u := by
  simp only [addEntry, lookup₃]
  by_cases hc : c = e.category
  · subst hc
    rw [Finmap.lookup_insert]
    simp only [Option.some_bind, true_and]
    by_cases hs : s = e.subcategory
    · subst hs
      rw [Finmap.lookup_insert]
      simp only [Option.some_bind, true_and]
      by_cases hu : u = e.unit
      · subst hu
        rw [Finmap.lookup_insert]
        simp only [if_pos rfl]
        cases h : agg.lookup e.category with
        | none => simp [h]
        | some sm =>
            simp only [h, Option.getD_some, Option.some_bind]
            cases h2 : sm.lookup e.subcategory with
            | none => simp [h2]
            | some um =>
                simp only [h2, Option.getD_some, Option.some_bind]
                cases h3 : um.lookup e.unit <;> simp [h3]
      · rw [Finmap.lookup_insert_of_ne _ hu, if_neg (by simp [hu])]
        cases h : agg.lookup e.category with
        | none => simp [h]
        | some sm =>
            simp only [h, Option.getD_some, Option.some_bind]
            cases h2 : sm.lookup e.subcategory <;> simp [h2]
    · rw [Finmap.lookup_insert_of_ne _ hs, if_neg (by simp [hs])]
      cases h : agg.lookup e.category with
      | none => simp [h]
      | some sm => simp [h]
  · rw [Finmap.lookup_insert_of_ne _ hc, if_neg (by simp [hc])]

theorem normalize_eq_none_iff (r : Row) :
    normalize r = none ↔ r.service_category = none ∨ r.total = none := by
  rcases r with ⟨oc, os, ou, ot⟩
  cases oc <;> cases ot <;> simp [normalize]

/-! ## Differ lemmas (claims C5, C7, C9) -/

theorem categoriesOf_some (A : Aggregate) : categoriesOf (some A) = A.keys := by
  rw [categoriesOf, pyTruthyAgg]
  by_cases h : A = ∅
  · subst h
    simp [Finmap.keys_empty]
  · simp [h]

theorem categoriesOf_none : categoriesOf none = ∅ := rfl

theorem compare_fst_sorted (o n : Option Aggregate) :
    (compare_service_data o n).1.Sorted (· < ·) :=
  Finset.sort_sorted_lt _

theorem compare_snd_sorted (o n : Option Aggregate) :
    (compare_service_data o n).2.Sorted (· < ·) :=
  Finset.sort_sorted_lt _

theorem mem_compare_fst (o n : Option Aggregate) (c : String) :
    c ∈ (compare_service_data o n).1 ↔ c ∈ categoriesOf o ∧ c ∉ categoriesOf n := by
  simp [compare_service_data, Finset.mem_sort, Finset.mem_sdiff]

theorem mem_compare_snd (o n : Option Aggregate) (c : String) :
    c ∈ (compare_service_data o n).2 ↔ c ∈ categoriesOf n ∧ c ∉ categoriesOf o := by
  simp [compare_service_data, Finset.mem_sort, Finset.mem_sdiff]

/-! ## Shape of stripped strings (claim C10) -/

theorem head?_stripList_not_ws (l : List Char) {a : Char}
    (h : (stripList l).head? = some a) : isWS a = false := by
  obtain ⟨t, ht⟩ := List.dropWhile_suffix (l := (l.dropWhile isWS).reverse) isWS
  have hm : l.dropWhile isWS = stripList l ++ t.reverse := by
    have h2 := congrArg List.reverse ht
    simpa [stripList, dropTrail, List.reverse_append] using h2.symm
  have h3 := List.head?_dropWhile_not isWS l
  cases hsl : stripList l with
  | nil => rw [hsl] at h; cases h
  | cons b bs =>
      rw [hsl] at h
      have hb : b = a := by simpa using h
      subst hb
      rw [hm, hsl] at h3
      simpa using h3

theorem getLast?_stripList_not_ws (l : List Char) {a : Char}
    (h : (stripList l).getLast? = some a) : isWS a = false := by
  rw [stripList, dropTrail, List.getLast?_eq_head?_reverse, List.reverse_reverse] at h
  have h3 := List.head?_dropWhile_not isWS (l.dropWhile isWS).reverse
  rw [h] at h3
  exact h3

theorem cleanKey_normField (v : Option String) : cleanKey (normField v) := by
  cases v with
  | none => exact Or.inl rfl
  | some s =>
      rw [normField]
      split
      case isTrue h =>
          refine Or.inr ⟨h.2, ?_, ?_⟩
          · intro c hc
            have hws := head?_stripList_not_ws s.data (Option.mem_def.mp hc)
            simpa [isWS] using hws
          · intro c hc
            have hws := getLast?_stripList_not_ws s.data (Option.mem_def.mp hc)
            simpa [isWS] using hws
      case isFalse h => exact Or.inl rfl

theorem goodAgg_empty : GoodAgg ∅ := by
  intro c sm h
  rw [Finmap.lookup_empty] at h
  cases h

theorem goodAgg_addEntry {agg : Aggregate} {e : Entry} (hg : GoodAgg agg)
    (hs : cleanKey e.subcategory) (hu : cleanKey e.unit) :
    GoodAgg (addEntry agg e) := by
  intro c sm hlk
  simp only [addEntry] at hlk
  by_cases hc : c = e.category
  · subst hc
    rw [Finmap.lookup_insert] at hlk
    injection hlk with hlk
    subst hlk
    constructor
    · intro s hsmem
      rw [Finmap.mem_insert] at hsmem
      rcases hsmem with rfl | hsmem
      · exact hs
      · cases h : agg.lookup e.category with
        | none =>
            rw [h] at hsmem
            simp only [Option.getD_none] at hsmem
            exact absurd hsmem Finmap.not_mem_empty
        | some sm0 =>
            rw [h] at hsmem
            simp only [Option.getD_some] at hsmem
            exact (hg _ _ h).1 s hsmem
    · intro s um hlk2
      by_cases hs2 : s = e.subcategory
      · subst hs2
        rw [Finmap.lookup_insert] at hlk2
        injection hlk2 with hlk2
        subst hlk2
        intro u humem
        rw [Finmap.mem_insert] at humem
        rcases humem with rfl | humem
        · exact hu
        · cases h : agg.lookup e.category with
          | none =>
              rw [h] at humem
              simp only [Option.getD_none, Finmap.lookup_empty] at humem
              exact absurd humem Finmap.not_mem_empty
          | some sm0 =>
              rw [h] at humem
              simp only [Option.getD_some] at humem
              cases h2 : sm0.lookup e.subcategory with
              | none =>
                  rw [h2] at humem
                  simp only [Option.getD_none] at humem
                  exact absurd humem Finmap.not_mem_empty
              | some um0 =>
                  rw [h2] at humem
                  simp only [Option.getD_some] at humem
                  exact (hg _ _ h).2 e.subcategory um0 h2 u humem
      · rw [Finmap.lookup_insert_of_ne _ hs2] at hlk2
        cases h : agg.lookup e.category with
        | none => rw [h] at hlk2; simp at hlk2
        | some sm0 =>
            rw [h] at hlk2
            simp only [Option.getD_some] at hlk2
            exact (hg _ _ h).2 s um hlk2
  · rw [Finmap.lookup_insert_of_ne _ hc] at hlk
    exact hg c sm hlk

theorem goodAgg_foldl (l : List Entry)
    (hl : ∀ e ∈ l, cleanKey e.subcategory ∧ cleanKey e.unit) :
    ∀ agg, GoodAgg agg → GoodAgg (l.foldl addEntry agg) := by
  induction l with
  | nil => intro agg h; exact h
  | cons e l ih =>
      intro agg h
      simp only [List.foldl_cons]
      exact ih (fun x hx => hl x (List.mem_cons_of_mem _ hx)) _
        (goodAgg_addEntry h (hl e (List.mem_cons_self e l)).1
          (hl e (List.mem_cons_self e l)).2)

theorem normalize_fields {r : Row} {e : Entry} (h : normalize r = some e) :
    e.subcategory = normField r.service_sub_category ∧
    e.unit = normField r.service_unit := by
  rcases r with ⟨oc, os, ou, ot⟩
  cases oc with
  | none => cases ot <;> simp [normalize] at h
  | some c =>
      cases ot with
      | none => simp [normalize] at h
      | some t =>
          simp only [normalize] at h
          injection h with h
          subst h
          exact ⟨rfl, rfl⟩

/-! ## Nonempty aggregates have keys -/

theorem keys_eq_empty_iff {α : Type u} [DecidableEq α] {β : α → Type v}
    {s : Finmap β} : s.keys = ∅ ↔ s = ∅ := by
  constructor
  · intro h
    refine Finmap.ext_lookup fun x => ?_
    rw [Finmap.lookup_empty, Finmap.lookup_eq_none]
    intro hx
    have : x ∈ s.keys := Finmap.mem_keys.mpr hx
    rw [h] at this
    exact absurd this (Finset.not_mem_empty x)
  · rintro rfl
    exact Finmap.keys_empty

/-! ## Null-aggregate behaviour of the comparison layer (claim C6) -/

theorem categoriesOf_some_empty : categoriesOf (some ∅) = ∅ := by
  simp [categoriesOf, pyTruthyAgg]

theorem compare_none_left (d : Option Aggregate) :
    compare_service_data none d = compare_service_data (some ∅) d := by
  simp [compare_service_data, categoriesOf_none, categoriesOf_some_empty]

theorem compare_none_right (d : Option Aggregate) :
    compare_service_data d none = compare_service_data d (some ∅) := by
  simp [compare_service_data, categoriesOf_none, categoriesOf_some_empty]

theorem categoryRow_none_left (nd : Option Aggregate)
    (t₁ t₂ : Finmap fun _ : String => ℚ) (c : String) :
    categoryRow none nd t₁ t₂ c
      = Except.error "TypeError: argument of type NoneType is not iterable" := rfl

theorem categoryRow_none_right (A : Aggregate)
    (t₁ t₂ : Finmap fun _ : String => ℚ) (c : String) :
    categoryRow (some A) none t₁ t₂ c
      = Except.error "TypeError: argument of type NoneType is not iterable" := rfl

theorem pyTruthyAgg_none : pyTruthyAgg none = false := rfl

theorem display_error_left (A : Aggregate) (hA : A ≠ ∅) :
    ∃ msg, display_dual_service_comparison none (some A) = Except.error msg := by
  have htru : pyTruthyAgg (some A) = true := by simp [pyTruthyAgg, hA]
  have hkeys : A.keys ≠ ∅ := fun h => hA (keys_eq_empty_iff.mp h)
  cases hL : (A.keys.sort (· ≤ ·)) with
  | nil =>
      exfalso
      have h0 := Finset.length_sort (α := String) (· ≤ ·) (s := A.keys)
      rw [hL] at h0
      simp only [List.length_nil] at h0
      exact hkeys (Finset.card_eq_zero.mp h0.symm)
  | cons c cs =>
      refine ⟨"TypeError: argument of type NoneType is not iterable", ?_⟩
      simp only [display_dual_service_comparison, pyTruthyAgg_none, htru,
        Bool.false_eq_true, if_false, if_true, Option.getD_some,
        Finset.empty_union]
      rw [hL, List.mapM_cons, categoryRow_none_left]
      rfl

theorem display_error_right (A : Aggregate) (hA : A ≠ ∅) :
    ∃ msg, display_dual_service_comparison (some A) none = Except.error msg := by
  have htru : pyTruthyAgg (some A) = true := by simp [pyTruthyAgg, hA]
  have hkeys : A.keys ≠ ∅ := fun h => hA (keys_eq_empty_iff.mp h)
  cases hL : (A.keys.sort (· ≤ ·)) with
  | nil =>
      exfalso
      have h0 := Finset.length_sort (α := String) (· ≤ ·) (s := A.keys)
      rw [hL] at h0
      simp only [List.length_nil] at h0
      exact hkeys (Finset.card_eq_zero.mp h0.symm)
  | cons c cs =>
      refine ⟨"TypeError: argument of type NoneType is not iterable", ?_⟩
      simp only [display_dual_service_comparison, pyTruthyAgg_none, htru,
        Bool.false_eq_true, if_false, if_true, Option.getD_some,
        Finset.union_empty]
      rw [hL, List.mapM_cons, categoryRow_none_right]
      rfl

/-! ## The detailed comparison tables (claim C8) -/

theorem lookup_chain (A : Aggregate) (c s u : String) :
    ((((A.lookup c).getD ∅).lookup s).getD ∅).lookup u = lookup₃ A c s u := by
  rw [lookup₃]
  cases h : A.lookup c with
  | none => simp [Finmap.lookup_empty]
  | some sm =>
      simp only [Option.getD_some, Option.some_bind]
      cases h2 : sm.lookup s with
      | none => simp [Finmap.lookup_empty]
      | some um => simp

theorem lookup₃_ne_none_parts {A : Aggregate} {c s u : String}
    (h : lookup₃ A c s u ≠ none) :
    s ∈ (A.lookup c).getD ∅ ∧ u ∈ (((A.lookup c).getD ∅).lookup s).getD ∅ := by
  rw [lookup₃] at h
  cases h1 : A.lookup c with
  | none => rw [h1] at h; simp at h
  | some sm =>
      rw [h1] at h
      simp only [Option.some_bind] at h
      cases h2 : sm.lookup s with
      | none => rw [h2] at h; simp at h
      | some um =>
          rw [h2] at h
          simp only [Option.some_bind] at h
          constructor
          · simp only [Option.getD_some]
            exact Finmap.mem_of_lookup_eq_some h2
          · simp only [h2, Option.getD_some]
            exact Finmap.lookup_isSome.mp (Option.ne_none_iff_isSome.mp h)

theorem mem_comparisonRows (osd nsd : UnitMap) (u : String)
    (h : u ∈ osd ∨ u ∈ nsd) :
    (u, (osd.lookup u).getD 0, (nsd.lookup u).getD 0,
      (nsd.lookup u).getD 0 - (osd.lookup u).getD 0) ∈ comparisonRows osd nsd := by
  have humem : u ∈ (osd.keys ∪ nsd.keys).sort (· ≤ ·) := by
    rw [Finset.mem_sort]
    rcases h with h | h
    · exact Finset.mem_union_left _ (Finmap.mem_keys.mpr h)
    · exact Finset.mem_union_right _ (Finmap.mem_keys.mpr h)
  exact List.mem_map_of_mem _ humem

/-! ## The claims -/

/-- C1: for every sequence of rows, the sum over all categories of the
category totals computed from the aggregate equals the sum of the amount
field over exactly those rows that survive normalization (non-missing
category and parseable amount). -/
theorem claim1_total_conservation (rows : List Row) :
    ((calculate_category_totals (analyze_azure_services rows)).entries.map
        fun e => e.2).sum
      = ((rows.filter fun r => r.service_category.isSome && r.total.isSome).map
          fun r => r.total.getD 0).sum := by
  rw [sum_values_calculate]
  show grandTotal ((rows.filterMap normalize).foldl addEntry ∅) = _
  rw [grandTotal_foldl, grandTotal_empty, zero_add, amounts_filterMap]

/-- C2: aggregating a sequence of normalized entries and aggregating any
permutation of it yield equal Aggregates. -/
theorem claim2_aggregate_perm (l₁ l₂ : List Entry) (h : l₁.Perm l₂) :
    aggregate l₁ = aggregate l₂ := by
  show l₁.foldl addEntry ∅ = l₂.foldl addEntry ∅
  exact h.foldl_eq' (fun x _ y _ z => addEntry_comm z x y) ∅

/-- Witness for C2 at a concrete two-element permutation. -/
theorem claim2_witness : aggregate [wEntry1, wEntry2] = aggregate [wEntry2, wEntry1] :=
  claim2_aggregate_perm _ _ (List.Perm.swap wEntry2 wEntry1 [])

/-- C3: the normalizer maps subcategory and unit to the sentinel exactly
when the value is null, blank after trimming, or textually the
not-a-number marker, and to the trimmed string otherwise; a row with
blank or null subcategory and numeric amount 5 yields the entry
`(category, N/A, unit-or-N/A, 5)`. -/
theorem claim3_sentinel :
    (∀ v, normField v = normFieldSpec v) ∧
    (∀ (c : String) (u : Option String),
      normalize ⟨some c, none, u, some 5⟩ = some ⟨c, "N/A", normField u, 5⟩ ∧
      normalize ⟨some c, some "   ", u, some 5⟩
        = some ⟨c, "N/A", normField u, 5⟩) := by
  constructor
  · intro v
    cases v with
    | none => rfl
    | some s =>
        simp only [normField, normFieldSpec]
        by_cases h1 : s = "nan"
        · simp [h1]
        · by_cases h2 : pyStrip s = ""
          · simp [h1, h2]
          · simp [h1, h2]
  · intro c u
    exact ⟨rfl, rfl⟩

/-- Counterexample to C4 as stated: a row whose category is blank (but not
null) is NOT excluded — it survives normalization and lands in the
aggregate under the key made of one space. -/
theorem claim4_counterexample :
    normalize blankRow = some ⟨" ", "x", "u", 5⟩ ∧
    " " ∈ analyze_azure_services [blankRow] := by
  constructor
  · rfl
  · decide

/-- C4 (amended): a row is skipped iff its category is null or its amount
is unparseable — a merely blank category is kept as its own key — and
every surviving row contributes its amount to exactly the one
(category, subcategory, unit) triple of its normalized entry. -/
theorem claim4_skip_iff (r : Row) :
    (normalize r = none ↔ r.service_category = none ∨ r.total = none) ∧
    ∀ e, normalize r = some e → ∀ c s u,
      lookup₃ (analyze_azure_services [r]) c s u =
        if c = e.category ∧ s = e.subcategory ∧ u = e.unit then some e.amount
        else none := by
  refine ⟨normalize_eq_none_iff r, fun e he c s u => ?_⟩
  show lookup₃ (([r].filterMap normalize).foldl addEntry ∅) c s u = _
  rw [List.filterMap_cons, he]
  show lookup₃ (addEntry ∅ e) c s u = _
  rw [lookup₃_addEntry, lookup₃_empty]
  split
  · simp
  · rfl

/-- Witness for C4: the surviving sample row contributes exactly to its
own triple and to no other. -/
theorem claim4_witness :
    lookup₃ (analyze_azure_services [wRow]) "Compute" "VM" "Hours" = some 10 ∧
    lookup₃ (analyze_azure_services [wRow]) "Compute" "VM" "Liters" = none := by
  have h := (claim4_skip_iff wRow).2 ⟨"Compute", "VM", "Hours", 10⟩ (by decide)
  constructor
  · have h1 := h "Compute" "VM" "Hours"
    simpa using h1
  · have h2 := h "Compute" "VM" "Liters"
    rw [if_neg (by decide)] at h2
    exact h2

/-- C5: the missing-categories component of diff(A, B) is the
added-categories component of diff(B, A) and vice versa. -/
theorem claim5_diff_symmetry (A B : Aggregate) :
    (compare_service_data (some A) (some B)).1
        = (compare_service_data (some B) (some A)).2 ∧
    (compare_service_data (some A) (some B)).2
        = (compare_service_data (some B) (some A)).1 :=
  ⟨rfl, rfl⟩

/-- Counterexample to C6 as stated: the side-by-side rendering does NOT
accept a null aggregate — with a null old side and a non-empty new side it
raises a TypeError instead of treating null as empty. -/
theorem claim6_counterexample :
    display_dual_service_comparison none (some cexAgg)
      = Except.error "TypeError: argument of type NoneType is not iterable" := by
  have htru : pyTruthyAgg (some (Finmap.singleton "A" (∅ : SubMap))) = true := by
    decide
  simp only [cexAgg, display_dual_service_comparison, pyTruthyAgg_none, htru,
    Bool.false_eq_true, if_false, if_true, Option.getD_some, Finset.empty_union,
    Finmap.keys_singleton, Finset.sort_singleton, List.mapM_cons,
    categoryRow_none_left]
  rfl

/-- C6 (amended): the category-level diff treats a null Aggregate exactly
like an empty one, on either side; the detailed side-by-side rendering
instead raises a TypeError whenever one argument is null and the other
side is non-empty. -/
theorem claim6_null_behaviour :
    (∀ d : Option Aggregate,
      compare_service_data none d = compare_service_data (some ∅) d ∧
      compare_service_data d none = compare_service_data d (some ∅)) ∧
    ∀ A : Aggregate, A ≠ ∅ →
      (∃ msg, display_dual_service_comparison none (some A) = Except.error msg) ∧
      (∃ msg, display_dual_service_comparison (some A) none = Except.error msg) :=
  ⟨fun d => ⟨compare_none_left d, compare_none_right d⟩,
   fun A hA => ⟨display_error_left A hA, display_error_right A hA⟩⟩

/-- Witness for C6 at a concrete nonempty aggregate. -/
theorem claim6_witness :
    compare_service_data none (some cexAgg)
        = compare_service_data (some ∅) (some cexAgg) ∧
    (∃ msg, display_dual_service_comparison (some cexAgg) none
        = Except.error msg) :=
  ⟨(claim6_null_behaviour.1 (some cexAgg)).1,
   (claim6_null_behaviour.2 cexAgg (by decide)).2⟩

/-- C7: both sequences returned by the diff are sorted in (String's
lexicographic) strictly ascending order, contain no duplicates, and
membership is exact set-difference membership of the category keys. -/
theorem claim7_sorted_nodup (A B : Aggregate) :
    ((compare_service_data (some A) (some B)).1.Sorted (· < ·) ∧
      (compare_service_data (some A) (some B)).1.Nodup ∧
      ∀ c, c ∈ (compare_service_data (some A) (some B)).1 ↔ c ∈ A ∧ c ∉ B) ∧
    ((compare_service_data (some A) (some B)).2.Sorted (· < ·) ∧
      (compare_service_data (some A) (some B)).2.Nodup ∧
      ∀ c, c ∈ (compare_service_data (some A) (some B)).2 ↔ c ∈ B ∧ c ∉ A) := by
  refine ⟨⟨compare_fst_sorted _ _, Finset.sort_nodup _ _, fun c => ?_⟩,
    ⟨compare_snd_sorted _ _, Finset.sort_nodup _ _, fun c => ?_⟩⟩
  · rw [mem_compare_fst, categoriesOf_some, categoriesOf_some,
      Finmap.mem_keys, Finmap.mem_keys]
  · rw [mem_compare_snd, categoriesOf_some, categoriesOf_some,
      Finmap.mem_keys, Finmap.mem_keys]

/-- C8: for a category present in both aggregates, every (subcategory,
unit) key present on at least one side is reported in the detailed
comparison, with a missing side contributing 0 and delta = new - old,
even when the delta is zero. -/
theorem claim8_detail (A B : Aggregate) (c s u : String)
    (hcA : c ∈ A) (hcB : c ∈ B)
    (hsu : lookup₃ A c s u ≠ none ∨ lookup₃ B c s u ≠ none) :
    ∃ subs, (c, subs) ∈ generate_comparison_pdf_detail A B ∧
      ∃ rows, (s, rows) ∈ subs ∧
        (u, (lookup₃ A c s u).getD 0, (lookup₃ B c s u).getD 0,
          (lookup₃ B c s u).getD 0 - (lookup₃ A c s u).getD 0) ∈ rows := by
  have hcmem : c ∈ (A.keys ∪ B.keys).sort (· ≤ ·) := by
    rw [Finset.mem_sort]
    exact Finset.mem_union_left _ (Finmap.mem_keys.mpr hcA)
  refine ⟨_, List.mem_map_of_mem _ hcmem, ?_⟩
  have hsmem : s ∈ ((((A.lookup c).getD ∅).keys ∪
      ((B.lookup c).getD ∅).keys).sort (· ≤ ·)) := by
    rw [Finset.mem_sort]
    rcases hsu with h | h
    · exact Finset.mem_union_left _
        (Finmap.mem_keys.mpr (lookup₃_ne_none_parts h).1)
    · exact Finset.mem_union_right _
        (Finmap.mem_keys.mpr (lookup₃_ne_none_parts h).1)
  refine ⟨_, List.mem_map_of_mem _ hsmem, ?_⟩
  rw [← lookup_chain A c s u, ← lookup_chain B c s u]
  refine mem_comparisonRows _ _ u ?_
  rcases hsu with h | h
  · exact Or.inl (lookup₃_ne_none_parts h).2
  · exact Or.inr (lookup₃_ne_none_parts h).2

/-- Witness for C8 at a concrete pair of aggregates sharing one triple,
whose delta is zero and is still reported. -/
theorem claim8_witness :
    ∃ subs, ("C", subs) ∈ generate_comparison_pdf_detail wAgg wAgg ∧
      ∃ rows, ("S", rows) ∈ subs ∧
        ("U", (lookup₃ wAgg "C" "S" "U").getD 0,
          (lookup₃ wAgg "C" "S" "U").getD 0,
          (lookup₃ wAgg "C" "S" "U").getD 0
            - (lookup₃ wAgg "C" "S" "U").getD 0) ∈ rows :=
  claim8_detail wAgg wAgg "C" "S" "U" (by decide) (by decide)
    (Or.inl (by decide))

/-- C9: diffing an Aggregate against itself yields empty missing and
added sequences. -/
theorem claim9_diff_self (A : Aggregate) :
    compare_service_data (some A) (some A) = ([], []) := by
  simp [compare_service_data, Finset.sdiff_self, Finset.sort_empty]

/-- C10: in every aggregate the analyzer produces, each subcategory key
and each unit key is either the sentinel or a non-empty string with no
leading and no trailing whitespace. -/
theorem claim10_clean_keys (rows : List Row) :
    ∀ c sm, (analyze_azure_services rows).lookup c = some sm →
      (∀ s ∈ sm, cleanKey s) ∧
      ∀ s um, sm.lookup s = some um → ∀ u ∈ um, cleanKey u := by
  have hl : ∀ e ∈ rows.filterMap normalize,
      cleanKey e.subcategory ∧ cleanKey e.unit := by
    intro e he
    obtain ⟨r, _, hne⟩ := List.mem_filterMap.mp he
    obtain ⟨h1, h2⟩ := normalize_fields hne
    exact ⟨h1 ▸ cleanKey_normField _, h2 ▸ cleanKey_normField _⟩
  exact goodAgg_foldl _ hl ∅ goodAgg_empty

/-- Witness for C10 at a concrete aggregate: the key produced by trimming
a padded subcategory is clean. -/
theorem claim10_witness :
    (analyze_azure_services [wRow]).lookup "Compute" = some wSub ∧
    cleanKey "VM" := by
  have hl : (analyze_azure_services [wRow]).lookup "Compute" = some wSub := rfl
  exact ⟨hl, (claim10_clean_keys [wRow] "Compute" wSub hl).1 "VM" (by decide)⟩

end CvsAnalyzer
